import Mathlib

/-!
Verification of the procedural-mesh and lighting core of
`src/multiple_lights.cpp` ("kinetic sculpture" renderer).

The relevant C++ code is shallowly embedded below:
* the index-buffer builder of `makeSculpture` (loop variables `r`, `c` are
  always non-negative in the source, so they are modelled as `ℕ`; the C++
  `%` agrees with `Nat.mod` on non-negative operands);
* the float computations (superellipse radius, wave modulation, normal
  approximation, light animation, aspect ratio) are modelled over `ℝ`.
  Where the C++ float code can divide by zero (IEEE: `inf`/`NaN`), the real
  model uses Lean's convention `x / 0 = 0`; either way the result is not
  the value the spec demands, which is what the theorems record.
-/

namespace KineticSculpture

/-- Embedding of the lambda `toIndex` of `makeSculpture`
(`src/multiple_lights.cpp:68-71`): `(c + colSegments) % colSegments`
then row-major flattening `r * colSegments + C`. -/
def toIndex (colSegments r c : ℕ) : ℕ :=
  r * colSegments + (c + colSegments) % colSegments

/-- The six indices `i0,i2,i1, i1,i2,i3` that one `(r, c)` quad contributes
(`src/multiple_lights.cpp:106-110`), with `i0 = toIndex r c`,
`i1 = toIndex r (c+1)`, `i2 = toIndex (r+1) c`, `i3 = toIndex (r+1) (c+1)`. -/
def quadIndices (colSegments r c : ℕ) : List ℕ :=
  [toIndex colSegments r c, toIndex colSegments (r + 1) c, toIndex colSegments r (c + 1),
   toIndex colSegments r (c + 1), toIndex colSegments (r + 1) c,
   toIndex colSegments (r + 1) (c + 1)]

/-- Embedding of the index-buffer generation loop of `makeSculpture`
(`src/multiple_lights.cpp:104-112`): `r` ranges over `[0, rowRings-1)` and
`c` over `[0, colSegments)`. (For `rowRings = 0` the C++ bound `rowRings-1`
is `-1` and the loop body never runs, matching `Nat` truncated subtraction.) -/
def makeSculptureIndices (rowRings colSegments : ℕ) : List ℕ :=
  (List.range (rowRings - 1)).flatMap fun r =>
    (List.range colSegments).flatMap fun c => quadIndices colSegments r c

lemma length_flatMap_range {α : Type} (f : ℕ → List α) (k n : ℕ)
    (h : ∀ i, (f i).length = k) :
    ((List.range n).flatMap f).length = n * k := by
  induction n with
  | zero => simp
  | succ n ih =>
      rw [List.range_succ, List.flatMap_append, List.length_append, ih]
      simp [h n]
      ring

lemma length_makeSculptureIndices (rowRings colSegments : ℕ) :
    (makeSculptureIndices rowRings colSegments).length =
      (rowRings - 1) * colSegments * 6 := by
  unfold makeSculptureIndices
  rw [length_flatMap_range _ (colSegments * 6)]
  · ring
  · intro r
    rw [length_flatMap_range _ 6]
    intro c
    simp [quadIndices]

lemma toIndex_lt (rowRings colSegments r c : ℕ) (hr : r < rowRings)
    (hc : 0 < colSegments) : toIndex colSegments r c < rowRings * colSegments := by
  have hmod : (c + colSegments) % colSegments < colSegments := Nat.mod_lt _ hc
  have h1 : toIndex colSegments r c < (r + 1) * colSegments := by
    unfold toIndex
    have : (r + 1) * colSegments = r * colSegments + colSegments := by ring
    omega
  exact h1.trans_le (Nat.mul_le_mul_right _ hr)

lemma mem_makeSculptureIndices_lt (rowRings colSegments : ℕ) (hc : 0 < colSegments) :
    ∀ i ∈ makeSculptureIndices rowRings colSegments, i < rowRings * colSegments := by
  intro i hi
  simp only [makeSculptureIndices, List.mem_flatMap, List.mem_range] at hi
  obtain ⟨r, hr, c, _, hmem⟩ := hi
  have hr1 : r < rowRings := by omega
  have hr2 : r + 1 < rowRings := by omega
  simp only [quadIndices, List.mem_cons, List.not_mem_nil, or_false] at hmem
  rcases hmem with h | h | h | h | h | h <;> subst h <;>
    first
      | exact toIndex_lt rowRings colSegments _ _ hr1 hc
      | exact toIndex_lt rowRings colSegments _ _ hr2 hc

noncomputable section

open Real

/-- A 3-component float vector (`glm::vec3`), modelled over `ℝ`. -/
structure Vec3 where
  x : ℝ
  y : ℝ
  z : ℝ

/-- Componentwise cross product, as `glm::cross`. -/
def cross (u v : Vec3) : Vec3 :=
  ⟨u.y * v.z - u.z * v.y, u.z * v.x - u.x * v.z, u.x * v.y - u.y * v.x⟩

/-- Squared Euclidean length (`glm::dot(v, v)`). -/
def normSq (v : Vec3) : ℝ := v.x ^ 2 + v.y ^ 2 + v.z ^ 2

/-- Embedding of `glm::normalize`: divide each component by the Euclidean
length. `glm` computes `v * inversesqrt(dot(v,v))`, which on a zero vector
is IEEE `0 * inf = NaN`; the real model takes `x / 0 = 0` instead. In both
semantics the zero vector is NOT mapped to a unit vector. -/
def normalize (v : Vec3) : Vec3 :=
  ⟨v.x / Real.sqrt (normSq v), v.y / Real.sqrt (normSq v), v.z / Real.sqrt (normSq v)⟩

/-- The tangent-in-theta vector of `makeSculpture`
(`src/multiple_lights.cpp:97`): `(-radius*sin(theta), 0, radius*cos(theta))`. -/
def tTheta (radius θ : ℝ) : Vec3 := ⟨-radius * Real.sin θ, 0, radius * Real.cos θ⟩

/-- The fixed vertical axis vector `tY = (0,1,0)` (`src/multiple_lights.cpp:98`). -/
def tY : Vec3 := ⟨0, 1, 0⟩

/-- The normal of a grid sample (`src/multiple_lights.cpp:99`):
`glm::normalize(glm::cross(tTheta, tY))`, as a function of the computed
radius and angle. -/
def sculptNormal (radius θ : ℝ) : Vec3 := normalize (cross (tTheta radius θ) tY)

/-- Superellipse x-coordinate (`src/multiple_lights.cpp:85`):
`powf(fabs(cos(theta)), 2/n) * a * (cos(theta) >= 0 ? 1 : -1)` with
`a = 1.0`, `n = 2.5`. -/
def cxOf (θ : ℝ) : ℝ :=
  |Real.cos θ| ^ ((2 : ℝ) / 2.5) * 1.0 * (if 0 ≤ Real.cos θ then 1 else -1)

/-- Superellipse z-coordinate (`src/multiple_lights.cpp:86`), with `b = 0.5`. -/
def czOf (θ : ℝ) : ℝ :=
  |Real.sin θ| ^ ((2 : ℝ) / 2.5) * 0.5 * (if 0 ≤ Real.sin θ then 1 else -1)

/-- Base cross-section radius `r0 = sqrt(cx*cx + cz*cz)`
(`src/multiple_lights.cpp:87`). -/
def r0Of (θ : ℝ) : ℝ := Real.sqrt (cxOf θ ^ 2 + czOf θ ^ 2)

/-- Travelling-wave modulation (`src/multiple_lights.cpp:89`). -/
def waveOf (u v t : ℝ) : ℝ :=
  0.25 * Real.sin (6.0 * u * (2 * π) - 4.0 * v * (2 * π) + t * 1.5)

/-- Time-varying sample radius `radius = r0 * (1 + wave)`
(`src/multiple_lights.cpp:90`), with `theta = uParam * two_pi`. -/
def sculptRadius (u v t : ℝ) : ℝ := r0Of (u * (2 * π)) * (1.0 + waveOf u v t)

/-- The argument of the horizontal trig functions for light `i`
(`src/multiple_lights.cpp:220-222`): `g_time * 0.7f + phase` with
`phase = i * half_pi`. -/
def lightPhaseArg (i : ℕ) (t : ℝ) : ℝ := t * 0.7 + (i : ℝ) * (π / 2)

/-- Embedding of the light-animation loop body (`src/multiple_lights.cpp:219-224`):
position of point light `i` at time `t`. -/
def animateLight (i : ℕ) (t : ℝ) : Vec3 :=
  ⟨1.8 * Real.sin (lightPhaseArg i t),
   1.0 + 0.4 * Real.sin (t * 1.3 + (i : ℝ)),
   1.8 * Real.cos (lightPhaseArg i t)⟩

/-- Aspect-ratio expression of the projection-matrix call
(`src/multiple_lights.cpp:215`): `w > 0 ? (float)w / h : 1.0f`. Note the
guard tests the WIDTH `w`, not the height `h`. (IEEE float: `w / 0` is
`inf`; the real model gives `0`.) -/
def aspectRatio (w h : ℤ) : ℝ := if 0 < w then (w : ℝ) / (h : ℝ) else 1.0

/-- Texture u-coordinate of a grid sample (`src/multiple_lights.cpp:78`):
`(float)c / colSegments`. -/
def uParam (colSegments c : ℕ) : ℝ := (c : ℝ) / (colSegments : ℝ)

/-- Texture v-coordinate of a grid sample (`src/multiple_lights.cpp:75`):
`(float)r / (rowRings - 1)` (the subtraction is C++ `int` subtraction,
modelled by real subtraction). -/
def vParam (rowRings r : ℕ) : ℝ := (r : ℝ) / ((rowRings : ℝ) - 1)

lemma cross_tTheta_tY (radius θ : ℝ) :
    cross (tTheta radius θ) tY =
      ⟨-(radius * Real.cos θ), 0, -(radius * Real.sin θ)⟩ := by
  simp only [cross, tTheta, tY, Vec3.mk.injEq]
  refine ⟨by ring, by ring, by ring⟩

lemma normSq_cross_tTheta_tY (radius θ : ℝ) :
    normSq (cross (tTheta radius θ) tY) = radius ^ 2 := by
  rw [cross_tTheta_tY]
  simp only [normSq]
  have h := Real.sin_sq_add_cos_sq θ
  ring_nf
  nlinarith [h]

lemma normSq_normalize (v : Vec3) (h : 0 < normSq v) :
    normSq (normalize v) = 1 := by
  have hs : Real.sqrt (normSq v) ^ 2 = normSq v := Real.sq_sqrt h.le
  have hs0 : Real.sqrt (normSq v) ≠ 0 := by
    have := Real.sqrt_pos.mpr h
    linarith
  simp only [normalize, normSq] at *
  field_simp

lemma sculptNormal_of_pos (radius θ : ℝ) (h : 0 < radius) :
    sculptNormal radius θ = ⟨-Real.cos θ, 0, -Real.sin θ⟩ := by
  unfold sculptNormal
  rw [cross_tTheta_tY]
  have hn : normSq (⟨-(radius * Real.cos θ), 0, -(radius * Real.sin θ)⟩ : Vec3)
      = radius ^ 2 := by
    rw [← cross_tTheta_tY radius θ]
    exact normSq_cross_tTheta_tY radius θ
  simp only [normalize, hn, Vec3.mk.injEq]
  rw [Real.sqrt_sq h.le]
  refine ⟨by field_simp; ring, by simp, by field_simp; ring⟩

lemma sculptNormal_y (radius θ : ℝ) : (sculptNormal radius θ).y = 0 := by
  unfold sculptNormal
  rw [cross_tTheta_tY]
  simp [normalize]

lemma r0Of_pos (θ : ℝ) : 0 < r0Of θ := by
  apply Real.sqrt_pos.mpr
  rcases eq_or_ne (Real.cos θ) 0 with hc | hc
  · have hs : Real.sin θ ^ 2 = 1 := by
      have h := Real.sin_sq_add_cos_sq θ
      rw [hc] at h
      nlinarith
    have habs : |Real.sin θ| = 1 := by
      rw [← Real.sqrt_sq_eq_abs, hs, Real.sqrt_one]
    have hcz : czOf θ ^ 2 = 1 / 4 := by
      unfold czOf
      rw [habs, Real.one_rpow]
      split_ifs <;> norm_num
    nlinarith [sq_nonneg (cxOf θ)]
  · have h1 : 0 < |Real.cos θ| := abs_pos.mpr hc
    have h2 : 0 < |Real.cos θ| ^ ((2 : ℝ) / 2.5) := Real.rpow_pos_of_pos h1 _
    have hcx : 0 < cxOf θ ^ 2 := by
      unfold cxOf
      split_ifs <;> nlinarith
    nlinarith [sq_nonneg (czOf θ)]

lemma sculptRadius_pos (u v t : ℝ) : 0 < sculptRadius u v t := by
  unfold sculptRadius
  apply mul_pos (r0Of_pos _)
  have hsin := Real.neg_one_le_sin (6.0 * u * (2 * π) - 4.0 * v * (2 * π) + t * 1.5)
  unfold waveOf
  nlinarith

/-- C1: for every ringCount ≥ 2 and segmentCount ≥ 3, the topology builder of
`makeSculpture` produces exactly `(ringCount-1)*segmentCount*6` indices, and
every produced index is strictly less than `ringCount*segmentCount`. -/
theorem C1_index_count_and_bounds (rowRings colSegments : ℕ)
    (h2 : 2 ≤ rowRings) (h3 : 3 ≤ colSegments) :
    (makeSculptureIndices rowRings colSegments).length =
      (rowRings - 1) * colSegments * 6 ∧
    ∀ i ∈ makeSculptureIndices rowRings colSegments, i < rowRings * colSegments := by
  refine ⟨length_makeSculptureIndices rowRings colSegments, ?_⟩
  exact mem_makeSculptureIndices_lt rowRings colSegments (by omega)

/-- Witness for C1 at `rowRings = 2`, `colSegments = 3`: the index buffer has
`1*3*6 = 18` entries and the concrete produced index `5` is below `2*3 = 6`. -/
theorem C1_index_count_and_bounds_witness :
    (makeSculptureIndices 2 3).length = (2 - 1) * 3 * 6 ∧ (5 : ℕ) < 2 * 3 :=
  ⟨(C1_index_count_and_bounds 2 3 (by norm_num) (by norm_num)).1,
   (C1_index_count_and_bounds 2 3 (by norm_num) (by norm_num)).2 5 (by decide)⟩

/-- C2 counterexample: at the degenerate size `ringCount = 1, segmentCount = 3`
the code raises no "invalid grid dimensions" condition at all — `makeSculpture`
has no validation and simply runs its loops, returning the ordinary result
(here an empty index list), so the claimed fail-fast error path does not exist. -/
theorem C2_counterexample : makeSculptureIndices 1 3 = [] := rfl

/-- C2 amended: degenerate grid sizes (`ringCount < 2` or `segmentCount < 3`)
are not validated and raise no error; with `ringCount < 2` the index list is
silently empty, and in every degenerate case the produced indices are still
in bounds (no corrupt index buffer), just without any explicit failure. -/
theorem C2_no_validation (rowRings colSegments : ℕ)
    (h : rowRings < 2 ∨ colSegments < 3) :
    (rowRings < 2 → makeSculptureIndices rowRings colSegments = []) ∧
    ∀ i ∈ makeSculptureIndices rowRings colSegments, i < rowRings * colSegments := by
  constructor
  · intro hlt
    unfold makeSculptureIndices
    have h0 : rowRings - 1 = 0 := by omega
    rw [h0]
    simp
  · rcases Nat.eq_zero_or_pos colSegments with h0 | hpos
    · subst h0
      have hempty : makeSculptureIndices rowRings 0 = [] := by
        unfold makeSculptureIndices
        simp
      rw [hempty]
      simp
    · exact mem_makeSculptureIndices_lt rowRings colSegments hpos

/-- Witness for C2 amended at `rowRings = 1`, `colSegments = 3`. -/
theorem C2_no_validation_witness : makeSculptureIndices 1 3 = [] :=
  (C2_no_validation 1 3 (Or.inl (by norm_num))).1 (by norm_num)

/-- C3 counterexample: the normalization of the cross product is NOT guarded
against a zero-length vector. At radius `0` (angle `0`) the code computes
`normalize((0,0,0))`; in the real model of `glm`'s division this yields
`(0,0,0)` (IEEE floats give NaN components) — not a unit length fallback
vector such as the tangent or `(0,1,0)`. -/
theorem C3_counterexample :
    sculptNormal 0 0 = ⟨0, 0, 0⟩ ∧ normSq (sculptNormal 0 0) ≠ 1 := by
  have h : sculptNormal 0 0 = ⟨0, 0, 0⟩ := by
    unfold sculptNormal
    rw [cross_tTheta_tY]
    simp [normalize, normSq]
  refine ⟨h, ?_⟩
  rw [h]
  simp [normSq]

/-- C3 amended: there is no zero-length guard — at radius `0` the computed
normal is the zero vector (NaN in IEEE floats), not a safe default unit
vector; however, with the program's constants the computed radius is
strictly positive at every `(u, v, time)` sample, so the unguarded
normalization never actually receives a zero-length cross product. -/
theorem C3_no_guard_but_radius_pos :
    ∀ (θ u v t : ℝ), sculptNormal 0 θ = ⟨0, 0, 0⟩ ∧ 0 < sculptRadius u v t := by
  intro θ u v t
  constructor
  · unfold sculptNormal
    rw [cross_tTheta_tY]
    simp [normalize, normSq]
  · exact sculptRadius_pos u v t

/-- C4: the aspect-ratio guard tests the WIDTH, not the height. With a
zero-height viewport of positive width (`w = 1280`, `h = 0`) the code divides
by zero (`1280.0f / 0.0f`, IEEE `inf`; `0` in the real model) instead of
falling back to `1.0`; the fallback fires only when the width is zero. -/
theorem C4_zero_height_not_guarded :
    aspectRatio 1280 0 ≠ 1 ∧ aspectRatio 0 0 = 1 := by
  constructor <;> norm_num [aspectRatio]

/-- C5: the light animator computes
`x = 1.8*sin(0.7*t + i*(π/2))`, `z = 1.8*cos(0.7*t + i*(π/2))`,
`y = 1.0 + 0.4*sin(1.3*t + i)`, and at `i = 0`, `t = 0` the position is
`x = 0`, `y = Y0 = 1.0`, `z = R = 1.8`. -/
theorem C5_light_formula :
    ∀ (i : ℕ) (t : ℝ),
      animateLight i t =
        ⟨1.8 * Real.sin (0.7 * t + (i : ℝ) * (π / 2)),
         1.0 + 0.4 * Real.sin (1.3 * t + (i : ℝ)),
         1.8 * Real.cos (0.7 * t + (i : ℝ) * (π / 2))⟩ ∧
      animateLight 0 0 = ⟨0, 1.0, 1.8⟩ := by
  intro i t
  constructor
  · simp only [animateLight, lightPhaseArg, Vec3.mk.injEq]
    refine ⟨?_, ?_, ?_⟩
    · rw [show t * 0.7 + (i : ℝ) * (π / 2) = 0.7 * t + (i : ℝ) * (π / 2) by ring]
    · rw [show t * 1.3 + (i : ℝ) = 1.3 * t + (i : ℝ) by ring]
    · rw [show t * 0.7 + (i : ℝ) * (π / 2) = 0.7 * t + (i : ℝ) * (π / 2) by ring]
  · simp only [animateLight, lightPhaseArg, Vec3.mk.injEq]
    norm_num

/-- C6: consecutive lights' horizontal phase arguments differ by exactly
`π/2` at every time, and every animated light position lies at horizontal
distance exactly `R = 1.8` from the vertical axis: `x² + z² = 1.8²`. -/
theorem C6_phase_step_and_orbit_radius :
    ∀ (i : ℕ) (t : ℝ),
      lightPhaseArg (i + 1) t = lightPhaseArg i t + π / 2 ∧
      (animateLight i t).x ^ 2 + (animateLight i t).z ^ 2 = 1.8 ^ 2 := by
  intro i t
  constructor
  · unfold lightPhaseArg
    push_cast
    ring
  · simp only [animateLight]
    nlinarith [Real.sin_sq_add_cos_sq (lightPhaseArg i t)]

/-- C7: the seam is stitched, not duplicated: for every ring `r` the index
at segment position `segmentCount` equals the index at segment position `0`
of the same ring, because the wrap in `toIndex` reduces the segment modulo
`segmentCount`. -/
theorem C7_seam_wrap :
    ∀ (colSegments r c : ℕ),
      toIndex colSegments r colSegments = toIndex colSegments r 0 ∧
      toIndex colSegments r c = r * colSegments + c % colSegments := by
  intro colSegments r c
  unfold toIndex
  constructor
  · simp [Nat.add_mod_right]
  · rw [Nat.add_mod_right]

/-- C8: for every sample with nonzero radius, the produced normal has unit
length (squared norm exactly 1 in the real model). -/
theorem C8_unit_normal (radius θ : ℝ) (h : radius ≠ 0) :
    normSq (sculptNormal radius θ) = 1 := by
  unfold sculptNormal
  apply normSq_normalize
  rw [normSq_cross_tTheta_tY]
  positivity

/-- Witness for C8 at `radius = 1`, `θ = 0`. -/
theorem C8_unit_normal_witness : (1 : ℝ) ≠ 0 ∧ normSq (sculptNormal 1 0) = 1 :=
  ⟨one_ne_zero, C8_unit_normal 1 0 one_ne_zero⟩

/-- C9 counterexample: texcoords are not all in `[0,1)`: at
`ringCount = 4`, ring `r = 3` (a valid ring index, `3 < 4`) the stored
v-coordinate is `3/(4-1) = 1`, which is not `< 1`. -/
theorem C9_counterexample : vParam 4 3 = 1 ∧ ¬ vParam 4 3 < 1 := by
  norm_num [vParam]

/-- C9 amended: for `ringCount ≥ 2`, every ring `r < ringCount` and segment
`c < segmentCount`, the stored texcoords satisfy `0 ≤ u < 1` but only
`0 ≤ v ≤ 1`: the v-coordinate reaches exactly `1` on the last ring. -/
theorem C9_texcoord_ranges (rowRings colSegments r c : ℕ)
    (h2 : 2 ≤ rowRings) (hr : r < rowRings) (hc : c < colSegments) :
    0 ≤ uParam colSegments c ∧ uParam colSegments c < 1 ∧
    0 ≤ vParam rowRings r ∧ vParam rowRings r ≤ 1 := by
  have hcpos : (0 : ℝ) < (colSegments : ℝ) := by
    have : 0 < colSegments := by omega
    exact_mod_cast this
  have hdpos : (0 : ℝ) < (rowRings : ℝ) - 1 := by
    have : (2 : ℝ) ≤ (rowRings : ℝ) := by exact_mod_cast h2
    linarith
  refine ⟨?_, ?_, ?_, ?_⟩
  · exact div_nonneg (Nat.cast_nonneg c) (Nat.cast_nonneg colSegments)
  · rw [uParam, div_lt_one hcpos]
    exact_mod_cast hc
  · exact div_nonneg (Nat.cast_nonneg r) hdpos.le
  · rw [vParam, div_le_one hdpos]
    have : (r : ℝ) + 1 ≤ (rowRings : ℝ) := by exact_mod_cast hr
    linarith

/-- Witness for C9 amended at `rowRings = 4`, `colSegments = 4`, `r = 3`,
`c = 3` (where `v` attains exactly `1`). -/
theorem C9_texcoord_ranges_witness :
    0 ≤ uParam 4 3 ∧ uParam 4 3 < 1 ∧ 0 ≤ vParam 4 3 ∧ vParam 4 3 ≤ 1 :=
  C9_texcoord_ranges 4 4 3 3 (by norm_num) (by norm_num) (by norm_num)

/-- C10: every produced normal has y-component exactly 0, and for positive
radius the normal equals `(-cos θ, 0, -sin θ)` — antiparallel to the
horizontal radial direction of the sample position, pointing toward the
vertical axis. -/
theorem C10_normal_horizontal_inward (radius θ : ℝ) :
    (sculptNormal radius θ).y = 0 ∧
    (0 < radius → sculptNormal radius θ = ⟨-Real.cos θ, 0, -Real.sin θ⟩) :=
  ⟨sculptNormal_y radius θ, fun h => sculptNormal_of_pos radius θ h⟩

/-- Witness for C10 at `radius = 1`, `θ = 0`: the normal is `(-1, 0, 0)`. -/
theorem C10_normal_horizontal_inward_witness :
    (sculptNormal 1 0).y = 0 ∧ sculptNormal 1 0 = ⟨-1, 0, 0⟩ := by
  refine ⟨(C10_normal_horizontal_inward 1 0).1, ?_⟩
  have h := (C10_normal_horizontal_inward 1 0).2 one_pos
  simpa using h

end

end KineticSculpture
